import Mathlib

/-!
Verification of the mutablerecord library (src/record.py).

The development shallowly embeds the parts of record.py that the claims
address:

* a small model of Python values (`PyVal`) with an explicit heap for
  mutable list objects, so that aliasing and deep copying are observable;
* the five validators and their `validate` methods;
* `MutableRecord.__init__` (field resolution, missing-required check,
  deep copy of defaults, validator dispatch, unknown-keyword check);
* `MutableRecordSet` (the generated list type) and its type-checked
  mutation operations;
* `FieldView` and `FieldViewDescriptor`;
* `MutableRecordType.__new__`, `make_mutable_type` and
  `make_mutable_list_type` at the namespace level.

Machine integers do not occur; Python ints are modelled as `Int`.
Exceptions are modelled with `Except` (for constructors, where an
exception means no object is produced) or with a `result x Option error`
pair (for in-place mutators, where the pre-state survives a failed call).
-/

/-- Address of a mutable object in the heap. -/
abbrev Addr := Nat

/-- Model of the Python values that the library manipulates: integers,
strings, None, references to mutable list objects, and the unique
`Required` sentinel object from record.py line 7. -/
inductive PyVal where
  | vint (n : Int)
  | vstr (s : String)
  | vnone
  | vref (a : Addr)
  | required
deriving DecidableEq, Repr, BEq

/-- The heap maps addresses (list positions) to mutable list objects.
Allocation appends at the end. -/
abbrev Heap := List (List PyVal)

/-- Read the object at an address (an invalid address reads as empty,
which never happens on the executions the theorems speak about). -/
def heapGet (h : Heap) (a : Addr) : List PyVal := h.getD a []

/-- Overwrite the object stored at an address: this is the model of an
in-place mutation of a Python list object. -/
def heapSet (h : Heap) (a : Addr) (contents : List PyVal) : Heap := h.set a contents

/-- The error kinds of the single DataError family described in the spec.
Each constructor corresponds to one distinct raise site of
`raise DataError(...)` in record.py; the source distinguishes them only
by message text. -/
inductive DataErrorKind where
  | missingRequiredField
  | unknownField
  | typeMismatch
  | invalidEnumValue
  | lengthMismatch
  | noLength
  | predicateFailed
deriving DecidableEq, Repr

/-- The Python exceptions the embedded code can raise: a `DataError`
with one of the kinds above, the `NameError` that the disallowed-base
branch of `MutableRecordType.__new__` actually raises (see
`MutableRecordType.new`), the `AssertionError` raised by the failed
`assert` statements in `MutableRecordSet`, and `IndexError` from list
indexing.  `typeError` is kept for completeness as the exception the
raise statement at record.py line 303 names but never constructs. -/
inductive PyError where
  | dataError (kind : DataErrorKind)
  | typeError
  | nameError
  | assertionError
  | indexError
deriving DecidableEq, Repr

/-- True exactly when an error belongs to the DataError family. -/
def PyError.isDataErr : PyError → Bool
  | .dataError _ => true
  | _ => false

/-- Association-list lookup with string keys, the model of a Python dict
lookup (`kwargs[key]`, `key in kwargs`, `self._members[key]`). -/
def alookup {α : Type} (key : String) : List (String × α) → Option α
  | [] => none
  | (k, v) :: rest => if k = key then some v else alookup key rest

/-- Copy one level of Python values: scalars are returned as-is (the
model of `copy.deepcopy` returning atomic immutables unchanged), while a
reference is replaced by a reference to a freshly allocated copy of its
contents, produced by `copyRef`.  This is the elementwise worker of the
model of `copy.deepcopy` at record.py line 136. -/
def copyLevel (copyRef : Heap → Addr → Heap × PyVal) : Heap → List PyVal → Heap × List PyVal
  | h, [] => (h, [])
  | h, .vref a :: rest =>
    let r1 := copyRef h a
    let r2 := copyLevel copyRef r1.1 rest
    (r2.1, r1.2 :: r2.2)
  | h, v :: rest =>
    let r := copyLevel copyRef h rest
    (r.1, v :: r.2)

/-- Deep-copy the list object stored at an address, allocating the copy
as a fresh object.  The fuel bounds the nesting depth; real
`copy.deepcopy` handles arbitrary (even cyclic) nesting via memoization,
and callers here pass fuel exceeding the depth of any acyclic heap, so
the fuel-exhausted branch (which still allocates a fresh object) is
never taken on meaningful inputs. -/
def copyRefFuel : Nat → Heap → Addr → Heap × PyVal
  | 0, h, _ => (h ++ [[]], .vref h.length)
  | fuel + 1, h, a =>
    let r := copyLevel (copyRefFuel fuel) h (heapGet h a)
    (r.1 ++ [r.2], .vref r.1.length)

/-- Model of `copy.deepcopy(default)` (record.py line 136): atomic
values copy to themselves, references to fresh copies of their target. -/
def deepcopy (h : Heap) (fuel : Nat) : PyVal → Heap × PyVal
  | .vref a => copyRefFuel fuel h a
  | v => (h, v)

/-- The runtime type tags needed for `isinstance` checks. -/
inductive PyType where
  | intT
  | strT
  | noneT
  | listT
  | objT
deriving DecidableEq, Repr

/-- Dynamic type of a value. -/
def pyTypeOf : PyVal → PyType
  | .vint _ => .intT
  | .vstr _ => .strT
  | .vnone => .noneT
  | .vref _ => .listT
  | .required => .objT

/-- Model of `isinstance(value, type)` for the value universe used
here (no subclassing among these types). -/
def isinstance (v : PyVal) (t : PyType) : Bool := pyTypeOf v == t

/-- Model of `len(value)`: `none` models the TypeError that `len`
raises on a value with no length. -/
def pyLen (h : Heap) : PyVal → Option Nat
  | .vstr s => some s.length
  | .vref a => some (heapGet h a).length
  | _ => none

/-- The validator classes of record.py (MustSatisfy, InstanceOf,
InstanceOrNone, OneOf, Length), each carrying its construction
parameters and its default value, exactly as the corresponding
`__init__` stores them.  `MustSatisfy` carries its predicate as a
function on values. -/
inductive Validator where
  | MustSatisfy (pred : PyVal → Bool) (default : PyVal)
  | InstanceOf (ty : PyType) (default : PyVal)
  | InstanceOrNone (ty : PyType) (default : PyVal)
  | OneOf (possible_values : List PyVal) (default : PyVal)
  | Length (n : Nat) (default : PyVal)

/-- The `default` attribute stored by `Validator.__init__`. -/
def Validator.default : Validator → PyVal
  | .MustSatisfy _ d => d
  | .InstanceOf _ d => d
  | .InstanceOrNone _ d => d
  | .OneOf _ d => d
  | .Length _ d => d

/-- The `validate` methods of the five validators (record.py lines
47-110).  The `field_name` argument only feeds the message text in the
source and is omitted; the error kind records which raise site fired.
Membership for `OneOf` is structural equality of values, matching
Python `in` on the scalar values used with it. -/
def Validator.validate (h : Heap) (v : Validator) (value : PyVal) : Except PyError Unit :=
  match v with
  | .MustSatisfy pred _ =>
    if pred value then .ok () else .error (.dataError .predicateFailed)
  | .InstanceOf t _ =>
    if isinstance value t then .ok () else .error (.dataError .typeMismatch)
  | .InstanceOrNone t _ =>
    if value ≠ .vnone ∧ ¬ isinstance value t then .error (.dataError .typeMismatch)
    else .ok ()
  | .OneOf possible_values dflt =>
    if value = .vnone ∧ dflt ≠ .vnone then .ok ()
    else if possible_values.any (fun pv => value == pv) then .ok ()
    else .error (.dataError .invalidEnumValue)
  | .Length n dflt =>
    if value = .vnone ∧ dflt ≠ .vnone then .ok ()
    else
      match pyLen h value with
      | some m => if m ≠ n then .error (.dataError .lengthMismatch) else .ok ()
      | none => .error (.dataError .noLength)

/-- A field specification as stored in `type(self).members`: either a
raw default value or a Validator instance (the `isinstance(spec,
Validator)` test at record.py line 121 is the match on this sum). -/
inductive FieldSpec where
  | plain (default : PyVal)
  | validator (v : Validator)

/-- The validator resolved from a spec (record.py lines 121-126). -/
def FieldSpec.resolveValidator : FieldSpec → Option Validator
  | .plain _ => none
  | .validator v => some v

/-- The default resolved from a spec (record.py lines 121-126). -/
def FieldSpec.resolveDefault : FieldSpec → PyVal
  | .plain d => d
  | .validator v => v.default

/-- Exception propagation: run the continuation on a normal result,
propagate a raised exception unchanged.  This is the sequencing of two
Python statements where the first may raise. -/
def exBind {α β : Type} (x : Except PyError α) (f : α → Except PyError β) : Except PyError β :=
  match x with
  | .error e => .error e
  | .ok a => f a

@[simp] theorem exBind_ok {α β : Type} (a : α) (f : α → Except PyError β) :
    exBind (.ok a) f = f a := rfl

@[simp] theorem exBind_error {α β : Type} (e : PyError) (f : α → Except PyError β) :
    exBind (.error e) f = .error e := rfl

/-- One iteration of the member loop of `MutableRecord.__init__`
(record.py lines 119-143) for field `key` with spec `spec`: check the
missing-required condition, resolve the value (the supplied argument,
else a deep copy of the default), and run the validator if there is
one.  Returns the value to store together with the heap after any
copying. -/
def initOneField (h : Heap) (kwargs : List (String × PyVal)) (key : String)
    (spec : FieldSpec) : Except PyError (Heap × PyVal) :=
  if alookup key kwargs = none ∧ spec.resolveDefault = PyVal.required then
    .error (.dataError .missingRequiredField)
  else
    let resolved : Heap × PyVal :=
      match alookup key kwargs with
      | some v => (h, v)
      | none => deepcopy h (h.length + 1) spec.resolveDefault
    match spec.resolveValidator with
    | some va => exBind (va.validate resolved.1 resolved.2) fun _ => .ok resolved
    | none => .ok resolved

/-- The member loop of `MutableRecord.__init__`: fields are processed
in declaration order, accumulating the stored attribute values; the
first exception aborts construction. -/
def initMembers (h : Heap) (kwargs : List (String × PyVal)) :
    List (String × FieldSpec) → Except PyError (Heap × List (String × PyVal))
  | [] => .ok (h, [])
  | (key, spec) :: rest =>
    exBind (initOneField h kwargs key spec) fun hv =>
      exBind (initMembers hv.1 kwargs rest) fun r => .ok (r.1, (key, hv.2) :: r.2)

/-- Model of `MutableRecord.__init__` (record.py lines 117-148): run
the member loop, then reject the first keyword argument whose name is
not a declared member.  An `.ok` result carries the heap after
construction and the attribute map of the new instance; an `.error`
result models the exception propagating, so no instance is produced. -/
def MutableRecord.init (h : Heap) (members : List (String × FieldSpec))
    (kwargs : List (String × PyVal)) : Except PyError (Heap × List (String × PyVal)) :=
  exBind (initMembers h kwargs members) fun r =>
    match kwargs.find? (fun kv => (alookup kv.1 members).isNone) with
    | some _ => .error (.dataError .unknownField)
    | none => .ok r

/-- An element of a generated record list: its dynamic type tag (the
name of the record type it is an instance of) and its field values.
Field values are integers, the value universe the field-view claims
use. -/
structure RecElem where
  ty : String
  fields : List (String × Int)
deriving DecidableEq, Repr

/-- Model of `getattr(item, field)` on a record instance. -/
def RecElem.getattr (e : RecElem) (f : String) : Option Int :=
  alookup f e.fields

/-- Replace the binding of one attribute name by a new value, leaving
all other bindings untouched. -/
def replaceField (f : String) (v : Int) : List (String × Int) → List (String × Int)
  | [] => []
  | (k, x) :: rest =>
    if k = f then (f, v) :: replaceField f v rest else (k, x) :: replaceField f v rest

/-- Model of `setattr(item, field, value)` on a record instance whose
slots contain the field (the only situation the library produces). -/
def RecElem.setattr (e : RecElem) (f : String) (v : Int) : RecElem :=
  { e with fields := replaceField f v e.fields }

/-- A `MutableRecordSet` value: the generated list subclass is
determined by its `value_type` class attribute, so the concrete list
type of an object is modelled by that tag; `elems` is the underlying
list storage. -/
structure MutableRecordSet where
  value_type : String
  elems : List RecElem
deriving DecidableEq, Repr

/-- Model of `MutableRecordSet.append` (record.py lines 203-205): the
`assert isinstance(object, self.value_type)` runs before the insertion,
so a failing call returns the unchanged list together with the
AssertionError. -/
def MutableRecordSet.append (s : MutableRecordSet) (o : RecElem) :
    MutableRecordSet × Option PyError :=
  if o.ty = s.value_type then ({ s with elems := s.elems ++ [o] }, none)
  else (s, some .assertionError)

/-- Append each element of a source list in order, propagating the
first exception: the loop body of `MutableRecordSet.__init__`
(record.py lines 171-173).  An exception inside a constructor means no
object is produced, hence the `Except` result. -/
def appendAll (s : MutableRecordSet) : List RecElem → Except PyError MutableRecordSet
  | [] => .ok s
  | o :: rest =>
    match MutableRecordSet.append s o with
    | (s', none) => appendAll s' rest
    | (_, some e) => .error e

/-- Model of `MutableRecordSet.__init__` (record.py lines 168-173):
start empty and append every element of the optional source sequence. -/
def MutableRecordSet.initFrom (vt : String) (src : List RecElem) :
    Except PyError MutableRecordSet :=
  appendAll { value_type := vt, elems := [] } src

/-- A Python slice expression with optional start and stop (the claims
only exercise step-1 slices, which is also all the source tests use). -/
structure PySlice where
  start : Option Int
  stop : Option Int

/-- Resolve one slice bound the way CPython does for step-1 slices:
missing bounds default to the ends, negative bounds count from the end,
and everything is clamped into [0, len]. -/
def sliceBound (len : Nat) (dflt : Nat) : Option Int → Nat
  | none => dflt
  | some i => if i < 0 then (i + len).toNat else min i.toNat len

/-- The elements a step-1 slice reads, in order. -/
def pyGetSlice (l : List RecElem) (sl : PySlice) : List RecElem :=
  (l.take (sliceBound l.length l.length sl.stop)).drop (sliceBound l.length 0 sl.start)

/-- The list produced by CPython step-1 slice assignment
`l[start:stop] = objects`: the addressed range is removed and the new
elements are spliced in at its place. -/
def pySetSlice (l : List RecElem) (sl : PySlice) (objects : List RecElem) : List RecElem :=
  let lo := sliceBound l.length 0 sl.start
  let hi := sliceBound l.length l.length sl.stop
  l.take lo ++ objects ++ l.drop (max lo hi)

/-- Model of the slice branch of `MutableRecordSet.__getitem__`
(record.py lines 175-180): read the slice from the underlying list and
rebuild an object of the same concrete type via `type(self)(value)`. -/
def MutableRecordSet.getitemSlice (s : MutableRecordSet) (sl : PySlice) :
    Except PyError MutableRecordSet :=
  MutableRecordSet.initFrom s.value_type (pyGetSlice s.elems sl)

/-- Model of the scalar branch of `MutableRecordSet.__getitem__`:
negative indices count from the end, out-of-range indices raise. -/
def MutableRecordSet.getitemIdx (s : MutableRecordSet) (i : Int) : Except PyError RecElem :=
  let j : Int := if i < 0 then i + s.elems.length else i
  if 0 ≤ j ∧ j < (s.elems.length : Int) then
    .ok (s.elems.getD j.toNat { ty := "", fields := [] })
  else .error .indexError

/-- Model of the slice branch of `MutableRecordSet.__setitem__`
(record.py lines 182-187): the replacement source is materialized into
the list `value`, every element is type-checked, and only then is the
underlying list written; a failed check leaves the list exactly as it
was. -/
def MutableRecordSet.setitemSlice (s : MutableRecordSet) (sl : PySlice)
    (value : List RecElem) : MutableRecordSet × Option PyError :=
  if ∀ o ∈ value, o.ty = s.value_type then
    ({ s with elems := pySetSlice s.elems sl value }, none)
  else (s, some .assertionError)

/-- Model of the scalar branch of `MutableRecordSet.__setitem__`
(record.py lines 188-190). -/
def MutableRecordSet.setitemIdx (s : MutableRecordSet) (i : Int) (o : RecElem) :
    MutableRecordSet × Option PyError :=
  if o.ty = s.value_type then
    let j : Int := if i < 0 then i + s.elems.length else i
    if 0 ≤ j ∧ j < (s.elems.length : Int) then
      ({ s with elems := s.elems.set j.toNat o }, none)
    else (s, some .indexError)
  else (s, some .assertionError)

/-- Model of `MutableRecordSet.extend` (record.py lines 207-210): the
input is consumed left to right, one element at a time; each element is
type-checked and then immediately appended, so on a failure the
elements already consumed stay in the list and the rest of the input is
never touched. -/
def MutableRecordSet.extend (s : MutableRecordSet) :
    List RecElem → MutableRecordSet × Option PyError
  | [] => (s, none)
  | o :: rest =>
    if o.ty = s.value_type then
      MutableRecordSet.extend { s with elems := s.elems ++ [o] } rest
    else (s, some .assertionError)

/-- The index at which CPython `list.insert` actually inserts: negative
indices count from the end and everything is clamped into [0, len]. -/
def pyInsertPos (i : Int) (len : Nat) : Nat :=
  if i < 0 then (i + len).toNat else min i.toNat len

/-- Model of `MutableRecordSet.insert` (record.py lines 212-214): the
type check runs before the insertion. -/
def MutableRecordSet.insert (s : MutableRecordSet) (i : Int) (o : RecElem) :
    MutableRecordSet × Option PyError :=
  if o.ty = s.value_type then
    let p := pyInsertPos i s.elems.length
    ({ s with elems := s.elems.take p ++ o :: s.elems.drop p }, none)
  else (s, some .assertionError)

/-- A `FieldView` value (record.py lines 229-235): a reference to the
backing container plus the projected field name.  Mutating operations
return the view whose container reflects the mutation, which models the
in-place update of the shared container. -/
structure FieldView where
  container : MutableRecordSet
  field : String
deriving DecidableEq, Repr

/-- Model of the scalar branch of `FieldView.__setitem__` (record.py
line 251): `setattr(self._container[index], self._field, value)`
mutates the addressed element of the backing container in place. -/
def FieldView.setitemIdx (fv : FieldView) (i : Int) (v : Int) :
    FieldView × Option PyError :=
  let j : Int := if i < 0 then i + fv.container.elems.length else i
  if 0 ≤ j ∧ j < (fv.container.elems.length : Int) then
    ({ fv with container := { fv.container with
        elems := fv.container.elems.set j.toNat
          (RecElem.setattr (fv.container.elems.getD j.toNat { ty := "", fields := [] })
            fv.field v) } }, none)
  else (fv, some .indexError)

/-- Model of `FieldView.__iter__` (record.py lines 253-255): one pass
over the container, yielding the current value of the projected field
of each element.  The generator reads the container lazily at iteration
time, so this function of the current container is exactly what any
fresh iteration yields. -/
def FieldView.iter (fv : FieldView) : List (Option Int) :=
  fv.container.elems.map (fun e => RecElem.getattr e fv.field)

/-- Model of the scalar branch of `FieldView.__getitem__` (record.py
line 244). -/
def FieldView.getitemIdx (fv : FieldView) (i : Int) : Except PyError (Option Int) :=
  match MutableRecordSet.getitemIdx fv.container i with
  | .ok e => .ok (RecElem.getattr e fv.field)
  | .error e => .error e

/-- Model of `FieldViewDescriptor.__get__` (record.py lines 264-272):
resolving the descriptor named for a field on a list object yields a
FieldView of that list for that field. -/
def FieldViewDescriptor.get (field : String) (self : MutableRecordSet) : FieldView :=
  { container := self, field := field }

/-- What a value in the class dictionary handed to the metaclass can
be: a data member (a field specification) or a behavioral member
(function, nested type, classmethod or property — the kinds record.py
line 311 passes through to the namespace). -/
inductive ClsVal where
  | dataVal (s : FieldSpec)
  | funcVal

/-- The field extraction of `MutableRecordType.__new__` (record.py
lines 309-314): dunder keys and behavioral members go to the namespace,
everything else is a field, in declaration order. -/
def recordFields (clsdict : List (String × ClsVal)) : List (String × FieldSpec) :=
  clsdict.filterMap fun kv =>
    match kv.2 with
    | .dataVal s => if kv.1.startsWith "__" then none else some (kv.1, s)
    | .funcVal => none

/-- An entry of the namespace of a generated list type. -/
inductive ListNsEntry where
  | fieldViewDescriptor (field : String)
deriving DecidableEq, Repr

/-- Descriptor of a generated list type: its name, its `value_type`
class attribute (the record type it is homogeneous over, stored by
record.py line 287), and the pluralized field-view descriptors
installed in its namespace. -/
structure ListTypeDescr where
  name : String
  value_type : String
  namespaceEntries : List (String × ListNsEntry)

/-- Model of `make_mutable_list_type` (record.py lines 282-290): for
every member key, install a FieldViewDescriptor under the key
pluralized with a trailing "s". -/
def make_mutable_list_type (typename : String) (value_type : String)
    (members : List (String × FieldSpec)) : ListTypeDescr :=
  { name := typename, value_type := value_type,
    namespaceEntries := members.map fun kv => (kv.1 ++ "s", .fieldViewDescriptor kv.1) }

/-- A base class reference in a class definition: the `object` base or
any other (data-carrying) base. -/
inductive BaseRef where
  | objectBase
  | otherBase (name : String)
deriving DecidableEq, Repr, BEq

/-- Descriptor of a generated record type: its name, its ordered member
map (the `members` attribute set at record.py line 320) and its
companion list type (the `List` attribute set at line 319). -/
structure RecordTypeDescr where
  name : String
  members : List (String × FieldSpec)
  listType : ListTypeDescr

/-- Model of `MutableRecordType.__new__` (record.py lines 301-321): a
declared base other than `object` raises.  The raise statement at line
303 names TypeError, but its message `"... (base was %s)" % base.__name__`
is evaluated before the TypeError is constructed, and `base` is bound
only inside the generator expression on line 302 — in Python 3 that
name does not leak, and no global or builtin `base` exists — so what
the program actually raises is a NameError; the TypeError never
materializes.  Otherwise the fields are separated out and the record
type plus its companion list type are produced. -/
def MutableRecordType.new (name : String) (bases : List BaseRef)
    (clsdict : List (String × ClsVal)) : Except PyError RecordTypeDescr :=
  if bases.any (fun b => b != BaseRef.objectBase) then .error .nameError
  else
    let fields := recordFields clsdict
    .ok { name := name, members := fields,
          listType := make_mutable_list_type (name ++ "List") name fields }

/-- Model of `make_mutable_type` (record.py lines 275-279). -/
def make_mutable_type (typename : String) (members : List (String × FieldSpec)) :
    Except PyError RecordTypeDescr :=
  MutableRecordType.new typename [BaseRef.objectBase]
    (members.map fun kv => (kv.1, ClsVal.dataVal kv.2))

/-- Decidable equality for `Except` results, so that concrete runs of
the embedded code can be checked by `decide`. -/
instance {e a : Type} [DecidableEq e] [DecidableEq a] : DecidableEq (Except e a) := fun x y =>
  match x, y with
  | .ok v, .ok w =>
    if h : v = w then .isTrue (by rw [h]) else .isFalse (fun c => by cases c; exact h rfl)
  | .error v, .error w =>
    if h : v = w then .isTrue (by rw [h]) else .isFalse (fun c => by cases c; exact h rfl)
  | .ok _, .error _ => .isFalse (fun c => by cases c)
  | .error _, .ok _ => .isFalse (fun c => by cases c)

/-- C3: for a field "a" validated by OneOf("a","b","c") with no default
(the constructor's default parameter is None), construction with the
field omitted or supplied as None raises a DataError (the OneOf raise
site), construction with "a" succeeds and the field reads back "a";
with default="c", construction with the field omitted succeeds and
reads back "c", construction with "d" raises, and construction with a
supplied None skips validation (the value is treated as the implicitly
valid use-the-default case) and succeeds. -/
theorem c3_oneof_validation :
    (MutableRecord.init [] [("a", .validator (.OneOf [.vstr "a", .vstr "b", .vstr "c"] .vnone))] []
        = .error (.dataError .invalidEnumValue)) ∧
    (MutableRecord.init [] [("a", .validator (.OneOf [.vstr "a", .vstr "b", .vstr "c"] .vnone))]
        [("a", .vnone)] = .error (.dataError .invalidEnumValue)) ∧
    (MutableRecord.init [] [("a", .validator (.OneOf [.vstr "a", .vstr "b", .vstr "c"] .vnone))]
        [("a", .vstr "a")] = .ok ([], [("a", .vstr "a")])) ∧
    (MutableRecord.init [] [("a", .validator (.OneOf [.vstr "a", .vstr "b", .vstr "c"] (.vstr "c")))]
        [] = .ok ([], [("a", .vstr "c")])) ∧
    (MutableRecord.init [] [("a", .validator (.OneOf [.vstr "a", .vstr "b", .vstr "c"] (.vstr "c")))]
        [("a", .vstr "d")] = .error (.dataError .invalidEnumValue)) ∧
    (∃ r, MutableRecord.init [] [("a", .validator (.OneOf [.vstr "a", .vstr "b", .vstr "c"] (.vstr "c")))]
        [("a", .vnone)] = .ok r) := by
  refine ⟨by decide, by decide, by decide, by decide, by decide, ⟨([], [("a", .vnone)]), by decide⟩⟩

/-- C8: for a field "a" validated by Length(3), construction with a
list of length 2 raises the length-mismatch DataError, construction
with a list of length 3 succeeds and the field reads back that list
(the stored value is the supplied reference, whose heap contents are
unchanged), and construction with a number (which has no length) raises
the distinct no-length DataError. -/
theorem c8_length_validation :
    (MutableRecord.init [[.vint 1, .vint 2]] [("a", .validator (.Length 3 .vnone))]
        [("a", .vref 0)] = .error (.dataError .lengthMismatch)) ∧
    (MutableRecord.init [[.vint 1, .vint 2, .vint 3]] [("a", .validator (.Length 3 .vnone))]
        [("a", .vref 0)]
      = .ok ([[.vint 1, .vint 2, .vint 3]], [("a", .vref 0)])) ∧
    (heapGet [[.vint 1, .vint 2, .vint 3]] 0 = [.vint 1, .vint 2, .vint 3]) ∧
    (MutableRecord.init [] [("a", .validator (.Length 3 .vnone))]
        [("a", .vint 5)] = .error (.dataError .noLength)) := by
  refine ⟨by decide, by decide, by decide, by decide⟩

/-- If the member loop fails on a first group of fields, it fails the
same way on any extension of the field list. -/
theorem initMembers_append_error {kwargs : List (String × PyVal)}
    (l2 : List (String × FieldSpec)) :
    ∀ (l1 : List (String × FieldSpec)) (h : Heap) (e : PyError),
      initMembers h kwargs l1 = .error e →
      initMembers h kwargs (l1 ++ l2) = .error e := by
  intro l1
  induction l1 with
  | nil => intro h e herr; simp [initMembers] at herr
  | cons kv rest ih =>
    intro h e herr
    obtain ⟨k, s⟩ := kv
    simp only [initMembers, List.cons_append, List.append_eq] at herr ⊢
    cases hof : initOneField h kwargs k s with
    | error e' =>
      simp only [hof, exBind_error] at herr ⊢
      exact herr
    | ok p =>
      obtain ⟨h', v⟩ := p
      simp only [hof, exBind_ok] at herr ⊢
      cases hr : initMembers h' kwargs rest with
      | error e'' =>
        simp only [hr, exBind_error] at herr
        rw [ih h' e'' hr]
        simpa using herr
      | ok q =>
        obtain ⟨hm, fm⟩ := q
        simp only [hr, exBind_ok] at herr
        simp at herr

/-- If the member loop succeeds on a first group of fields, the loop on
an extended field list continues with the remaining fields from the
intermediate heap, prepending the already-resolved values. -/
theorem initMembers_append_ok {kwargs : List (String × PyVal)}
    (l2 : List (String × FieldSpec)) :
    ∀ (l1 : List (String × FieldSpec)) (h h1 : Heap) (f1 : List (String × PyVal)),
      initMembers h kwargs l1 = .ok (h1, f1) →
      initMembers h kwargs (l1 ++ l2) =
        exBind (initMembers h1 kwargs l2) fun r => .ok (r.1, f1 ++ r.2) := by
  intro l1
  induction l1 with
  | nil =>
    intro h h1 f1 hok
    simp only [initMembers] at hok
    cases hok
    simp only [List.nil_append]
    cases initMembers h kwargs l2 with
    | error e => rfl
    | ok p => cases p; rfl
  | cons kv rest ih =>
    intro h h1 f1 hok
    obtain ⟨k, s⟩ := kv
    simp only [initMembers, List.cons_append, List.append_eq] at hok ⊢
    cases hof : initOneField h kwargs k s with
    | error e' => simp only [hof, exBind_error] at hok; simp at hok
    | ok p =>
      obtain ⟨h', v⟩ := p
      simp only [hof, exBind_ok] at hok ⊢
      cases hr : initMembers h' kwargs rest with
      | error e'' => simp only [hr, exBind_error] at hok; simp at hok
      | ok q =>
        obtain ⟨hm, fm⟩ := q
        simp only [hr, exBind_ok, Except.ok.injEq, Prod.mk.injEq] at hok
        obtain ⟨he, hf⟩ := hok
        subst he
        subst hf
        rw [ih h' hm fm hr]
        cases initMembers hm kwargs l2 with
        | error e => rfl
        | ok r => obtain ⟨h2, f2⟩ := r; rfl

/-- When the member loop reaches a field whose resolved default is the
Required sentinel and no argument for it was supplied, it raises the
missing-required DataError on the spot. -/
theorem initMembers_missing_head (h : Heap) (kwargs : List (String × PyVal)) (key : String)
    (spec : FieldSpec) (post : List (String × FieldSpec))
    (habs : alookup key kwargs = none) (hreq : spec.resolveDefault = PyVal.required) :
    initMembers h kwargs ((key, spec) :: post) = .error (.dataError .missingRequiredField) := by
  simp only [initMembers, initOneField, if_pos (And.intro habs hreq), exBind_error]

/-- C1: for every record type and every declared field whose resolved
default is the Required sentinel, constructing an instance whose
keyword arguments omit that field never produces an instance, and —
provided the fields declared before it are themselves processed
without an exception — the construction fails with the
missing-required-field DataError. -/
theorem c1_required_missing (h : Heap) (pre post : List (String × FieldSpec)) (key : String)
    (spec : FieldSpec) (kwargs : List (String × PyVal))
    (hreq : spec.resolveDefault = PyVal.required) (habs : alookup key kwargs = none) :
    (∀ r, MutableRecord.init h (pre ++ (key, spec) :: post) kwargs ≠ .ok r) ∧
    (∀ h1 f1, initMembers h kwargs pre = .ok (h1, f1) →
      MutableRecord.init h (pre ++ (key, spec) :: post) kwargs
        = .error (.dataError .missingRequiredField)) := by
  constructor
  · intro r hok
    unfold MutableRecord.init at hok
    cases hpre : initMembers h kwargs pre with
    | error e =>
      rw [initMembers_append_error _ pre h e hpre] at hok
      simp at hok
    | ok p =>
      obtain ⟨h1, f1⟩ := p
      rw [initMembers_append_ok _ pre h h1 f1 hpre,
        initMembers_missing_head h1 kwargs key spec post habs hreq] at hok
      simp at hok
  · intro h1 f1 hpre
    unfold MutableRecord.init
    rw [initMembers_append_ok _ pre h h1 f1 hpre,
      initMembers_missing_head h1 kwargs key spec post habs hreq]
    rfl

/-- Witness for C1 at a concrete input: a single field "a" declared
Required and a construction call with no arguments. -/
theorem c1_required_missing_witness :
    MutableRecord.init [] [("a", FieldSpec.plain PyVal.required)] []
      = .error (.dataError .missingRequiredField) :=
  (c1_required_missing [] [] [] "a" (.plain .required) [] rfl rfl).2 [] [] rfl

/-- Heap extension: construction only ever allocates at the end of the
heap, never touching existing objects. -/
def HeapExt (h h' : Heap) : Prop := ∃ t, h' = h ++ t

theorem heapExt_refl (h : Heap) : HeapExt h h := ⟨[], by simp⟩

theorem heapExt_append (h : Heap) (t : List (List PyVal)) : HeapExt h (h ++ t) := ⟨t, rfl⟩

theorem heapExt_trans {h1 h2 h3 : Heap} (e12 : HeapExt h1 h2) (e23 : HeapExt h2 h3) :
    HeapExt h1 h3 := by
  obtain ⟨t1, rfl⟩ := e12
  obtain ⟨t2, rfl⟩ := e23
  exact ⟨t1 ++ t2, by simp⟩

theorem HeapExt.length_le {h h' : Heap} (e : HeapExt h h') : h.length ≤ h'.length := by
  obtain ⟨t, rfl⟩ := e
  simp

/-- Every reference produced by one level of copying is fresh: at least
past the initial heap, strictly inside the final heap; and the heap
only grows.  The hypothesis is the same property for the
single-reference copier. -/
theorem copyLevel_spec (copyRef : Heap → Addr → Heap × PyVal)
    (hcr : ∀ h a, HeapExt h (copyRef h a).1 ∧
      ∀ b, (copyRef h a).2 = .vref b → h.length ≤ b ∧ b < (copyRef h a).1.length) :
    ∀ (vs : List PyVal) (h : Heap),
      HeapExt h (copyLevel copyRef h vs).1 ∧
      ∀ b, PyVal.vref b ∈ (copyLevel copyRef h vs).2 →
        h.length ≤ b ∧ b < (copyLevel copyRef h vs).1.length := by
  intro vs
  induction vs with
  | nil => intro h; exact ⟨heapExt_refl h, by intro b hb; simp [copyLevel] at hb⟩
  | cons v rest ih =>
    intro h
    cases v with
    | vref a =>
      simp only [copyLevel]
      refine ⟨heapExt_trans (hcr h a).1 (ih (copyRef h a).1).1, ?_⟩
      intro b hb
      simp only [List.mem_cons] at hb
      rcases hb with hb | hb
      · have hbd := (hcr h a).2 b hb.symm
        exact ⟨hbd.1, lt_of_lt_of_le hbd.2 (ih (copyRef h a).1).1.length_le⟩
      · have hbd := (ih (copyRef h a).1).2 b hb
        exact ⟨le_trans (hcr h a).1.length_le hbd.1, hbd.2⟩
    | vint n =>
      simp only [copyLevel]
      refine ⟨(ih h).1, ?_⟩
      intro b hb
      simp only [List.mem_cons] at hb
      rcases hb with hb | hb
      · simp at hb
      · exact (ih h).2 b hb
    | vstr t =>
      simp only [copyLevel]
      refine ⟨(ih h).1, ?_⟩
      intro b hb
      simp only [List.mem_cons] at hb
      rcases hb with hb | hb
      · simp at hb
      · exact (ih h).2 b hb
    | vnone =>
      simp only [copyLevel]
      refine ⟨(ih h).1, ?_⟩
      intro b hb
      simp only [List.mem_cons] at hb
      rcases hb with hb | hb
      · simp at hb
      · exact (ih h).2 b hb
    | required =>
      simp only [copyLevel]
      refine ⟨(ih h).1, ?_⟩
      intro b hb
      simp only [List.mem_cons] at hb
      rcases hb with hb | hb
      · simp at hb
      · exact (ih h).2 b hb

/-- Copying an object always allocates a fresh reference (whatever the
fuel): the returned reference is past the initial heap and inside the
final heap, which extends the initial one. -/
theorem copyRefFuel_spec :
    ∀ (fuel : Nat) (h : Heap) (a : Addr),
      HeapExt h (copyRefFuel fuel h a).1 ∧
      ∀ b, (copyRefFuel fuel h a).2 = .vref b →
        h.length ≤ b ∧ b < (copyRefFuel fuel h a).1.length := by
  intro fuel
  induction fuel with
  | zero =>
    intro h a
    refine ⟨heapExt_append h [[]], ?_⟩
    intro b hb
    simp only [copyRefFuel, PyVal.vref.injEq] at hb
    subst hb
    simp [copyRefFuel]
  | succ fuel ih =>
    intro h a
    have hlev := copyLevel_spec (copyRefFuel fuel) ih (heapGet h a) h
    constructor
    · exact heapExt_trans hlev.1
        (heapExt_append (copyLevel (copyRefFuel fuel) h (heapGet h a)).1 _)
    · intro b hb
      simp only [copyRefFuel, PyVal.vref.injEq] at hb
      subst hb
      simp only [copyRefFuel, List.length_append, List.length_cons, List.length_nil]
      exact ⟨hlev.1.length_le, Nat.lt_succ_self _⟩

/-- Freshness of `deepcopy`: the heap only grows, and if the copy of
the default is a reference then it refers to a freshly allocated
object. -/
theorem deepcopy_spec (h : Heap) (fuel : Nat) (v : PyVal) :
    HeapExt h (deepcopy h fuel v).1 ∧
    ∀ b, (deepcopy h fuel v).2 = .vref b →
      h.length ≤ b ∧ b < (deepcopy h fuel v).1.length := by
  cases v with
  | vref a => exact copyRefFuel_spec fuel h a
  | vint n => exact ⟨heapExt_refl h, by intro b hb; simp [deepcopy] at hb⟩
  | vstr t => exact ⟨heapExt_refl h, by intro b hb; simp [deepcopy] at hb⟩
  | vnone => exact ⟨heapExt_refl h, by intro b hb; simp [deepcopy] at hb⟩
  | required => exact ⟨heapExt_refl h, by intro b hb; simp [deepcopy] at hb⟩

/-- When one field resolves successfully, the heap only grows, and if
the field was not supplied by the caller and its resolved value is a
reference, the reference is to a freshly allocated copy of the default:
past the heap the field started from, inside the heap it ended with. -/
theorem initOneField_spec (h : Heap) (kwargs : List (String × PyVal)) (key : String)
    (spec : FieldSpec) (h' : Heap) (v : PyVal)
    (hok : initOneField h kwargs key spec = .ok (h', v)) :
    HeapExt h h' ∧
    (alookup key kwargs = none → ∀ b, v = .vref b → h.length ≤ b ∧ b < h'.length) := by
  unfold initOneField at hok
  split at hok
  · simp at hok
  · cases hkey : alookup key kwargs with
    | some w =>
      simp only [hkey] at hok
      cases hva : spec.resolveValidator with
      | none =>
        simp only [hva] at hok
        cases hok
        refine ⟨heapExt_refl h, ?_⟩
        intro hnone
        simp at hnone
      | some va =>
        simp only [hva] at hok
        cases hval : va.validate h w with
        | error e => simp only [hval, exBind_error] at hok; simp at hok
        | ok u =>
          simp only [hval, exBind_ok] at hok
          cases hok
          refine ⟨heapExt_refl h, ?_⟩
          intro hnone
          simp at hnone
    | none =>
      simp only [hkey] at hok
      have hd := deepcopy_spec h (h.length + 1) spec.resolveDefault
      cases hva : spec.resolveValidator with
      | none =>
        simp only [hva] at hok
        injection hok with hres
        have h1 : (deepcopy h (h.length + 1) spec.resolveDefault).1 = h' := by rw [hres]
        have h2 : (deepcopy h (h.length + 1) spec.resolveDefault).2 = v := by rw [hres]
        constructor
        · rw [← h1]; exact hd.1
        · intro _ b hvb
          rw [← h1]
          exact hd.2 b (h2.trans hvb)
      | some va =>
        simp only [hva] at hok
        cases hval : va.validate (deepcopy h (h.length + 1) spec.resolveDefault).1
            (deepcopy h (h.length + 1) spec.resolveDefault).2 with
        | error e => simp only [hval, exBind_error] at hok; simp at hok
        | ok u =>
          simp only [hval, exBind_ok] at hok
          injection hok with hres
          have h1 : (deepcopy h (h.length + 1) spec.resolveDefault).1 = h' := by rw [hres]
          have h2 : (deepcopy h (h.length + 1) spec.resolveDefault).2 = v := by rw [hres]
          constructor
          · rw [← h1]; exact hd.1
          · intro _ b hvb
            rw [← h1]
            exact hd.2 b (h2.trans hvb)

/-- Freshness for the whole member loop: the heap only grows, and every
field whose value is a reference but which was not supplied by the
caller refers to an object allocated during this construction (past the
initial heap, inside the final heap). -/
theorem initMembers_spec {kwargs : List (String × PyVal)} :
    ∀ (l : List (String × FieldSpec)) (h h' : Heap) (flds : List (String × PyVal)),
      initMembers h kwargs l = .ok (h', flds) →
      HeapExt h h' ∧
      ∀ key b, alookup key kwargs = none → alookup key flds = some (.vref b) →
        h.length ≤ b ∧ b < h'.length := by
  intro l
  induction l with
  | nil =>
    intro h h' flds hok
    simp only [initMembers] at hok
    cases hok
    exact ⟨heapExt_refl h, by intro key b hn hl; simp [alookup] at hl⟩
  | cons ks rest ih =>
    intro h h' flds hok
    obtain ⟨k, s⟩ := ks
    simp only [initMembers] at hok
    cases hof : initOneField h kwargs k s with
    | error e => simp only [hof, exBind_error] at hok; simp at hok
    | ok p =>
      obtain ⟨hm, v⟩ := p
      simp only [hof, exBind_ok] at hok
      cases hr : initMembers hm kwargs rest with
      | error e => simp only [hr, exBind_error] at hok; simp at hok
      | ok q =>
        obtain ⟨h2, f2⟩ := q
        simp only [hr, exBind_ok] at hok
        cases hok
        have hone := initOneField_spec h kwargs k s hm v hof
        have hrest := ih hm h' f2 hr
        refine ⟨heapExt_trans hone.1 hrest.1, ?_⟩
        intro key b hnone hl
        simp only [alookup] at hl
        by_cases hkk : k = key
        · rw [if_pos hkk] at hl
          injection hl with hv
          subst hkk
          have hb := hone.2 hnone b hv
          exact ⟨hb.1, lt_of_lt_of_le hb.2 hrest.1.length_le⟩
        · rw [if_neg hkk] at hl
          have hb := hrest.2 key b hnone hl
          exact ⟨le_trans hone.1.length_le hb.1, hb.2⟩

/-- Freshness transferred to the full constructor `MutableRecord.init`. -/
theorem init_spec {h h' : Heap} {members : List (String × FieldSpec)}
    {kwargs : List (String × PyVal)} {flds : List (String × PyVal)}
    (hok : MutableRecord.init h members kwargs = .ok (h', flds)) :
    HeapExt h h' ∧
    ∀ key b, alookup key kwargs = none → alookup key flds = some (.vref b) →
      h.length ≤ b ∧ b < h'.length := by
  unfold MutableRecord.init at hok
  cases hmem : initMembers h kwargs members with
  | error e => simp only [hmem, exBind_error] at hok; simp at hok
  | ok p =>
    obtain ⟨h2, f2⟩ := p
    simp only [hmem, exBind_ok] at hok
    cases hfind : kwargs.find? (fun kv => (alookup kv.1 members).isNone) with
    | some w => simp only [hfind] at hok; simp at hok
    | none =>
      simp only [hfind] at hok
      cases hok
      exact initMembers_spec members h h' flds hmem

/-- Mutating the object at one address leaves the object read from any
other address unchanged. -/
theorem heapGet_set_ne (h : Heap) (a1 a2 : Addr) (c : List PyVal) (hne : a1 ≠ a2) :
    heapGet (heapSet h a1 c) a2 = heapGet h a2 := by
  unfold heapGet heapSet
  rw [List.getD_eq_getElem?_getD, List.getD_eq_getElem?_getD, List.getElem?_set_ne hne]

/-- C2: build two instances of the same record type from the same
arguments, the second starting from the heap the first produced; for
any field not supplied by the caller whose resolved value is a mutable
object (a reference), the two instances hold distinct references —
each a deep, independent copy of the default — so mutating the first
instance's object in place leaves the object the second instance reads
unchanged. -/
theorem c2_default_no_alias (h : Heap) (members : List (String × FieldSpec))
    (kwargs : List (String × PyVal)) (key : String) (h1 h2 : Heap)
    (flds1 flds2 : List (String × PyVal)) (a1 a2 : Addr) (contents : List PyVal)
    (hinit1 : MutableRecord.init h members kwargs = .ok (h1, flds1))
    (hinit2 : MutableRecord.init h1 members kwargs = .ok (h2, flds2))
    (habs : alookup key kwargs = none)
    (hf1 : alookup key flds1 = some (.vref a1))
    (hf2 : alookup key flds2 = some (.vref a2)) :
    a1 ≠ a2 ∧ heapGet (heapSet h2 a1 contents) a2 = heapGet h2 a2 := by
  have hb1 := (init_spec hinit1).2 key a1 habs hf1
  have hb2 := (init_spec hinit2).2 key a2 habs hf2
  obtain ⟨hb1a, hb1b⟩ := hb1
  obtain ⟨hb2a, hb2b⟩ := hb2
  have hne : a1 ≠ a2 := Nat.ne_of_lt (Nat.lt_of_lt_of_le hb1b hb2a)
  exact ⟨hne, heapGet_set_ne h2 a1 a2 contents hne⟩

/-- Witness for C2 at a concrete input: one field "a" whose default is
the mutable list [1, 2] stored at address 0; two constructions with no
arguments yield references 1 and 2 to two fresh copies, and overwriting
object 1 (the model of mutating the first instance's field value in
place) leaves object 2 — the second instance's field value — intact. -/
theorem c2_default_no_alias_witness :
    (1 : Addr) ≠ 2 ∧
    heapGet (heapSet [[.vint 1, .vint 2], [.vint 1, .vint 2], [.vint 1, .vint 2]] 1 [.vint 99]) 2
      = heapGet [[.vint 1, .vint 2], [.vint 1, .vint 2], [.vint 1, .vint 2]] 2 :=
  c2_default_no_alias [[.vint 1, .vint 2]] [("a", .plain (.vref 0))] [] "a"
    [[.vint 1, .vint 2], [.vint 1, .vint 2]]
    [[.vint 1, .vint 2], [.vint 1, .vint 2], [.vint 1, .vint 2]]
    [("a", .vref 1)] [("a", .vref 2)] 1 2 [.vint 99]
    (by decide) (by decide) rfl rfl rfl

/-- Re-appending elements that all carry the list's value type succeeds
and concatenates them in order (the loop of `MutableRecordSet.__init__`
on a type-correct source). -/
theorem appendAll_ok (vt : String) :
    ∀ (xs l : List RecElem), (∀ e ∈ xs, e.ty = vt) →
      appendAll { value_type := vt, elems := l } xs
        = .ok { value_type := vt, elems := l ++ xs } := by
  intro xs
  induction xs with
  | nil => intro l hv; simp [appendAll]
  | cons o rest ih =>
    intro l hv
    have ho : o.ty = vt := hv o (List.mem_cons_self o rest)
    simp only [appendAll, MutableRecordSet.append, if_pos ho]
    rw [ih (l ++ [o]) (fun e he => hv e (List.mem_cons_of_mem o he))]
    simp

/-- C4: reading the slice [1:] from a record list of length at least 1
whose elements all carry its value type yields an object of the same
concrete list type (same value_type tag, built through the list type's
own constructor), holding exactly the elements at indices 1..n-1 in
order, so its length is the original length minus one. -/
theorem c4_slice_read (s : MutableRecordSet) (hval : ∀ e ∈ s.elems, e.ty = s.value_type)
    (hlen : 1 ≤ s.elems.length) :
    MutableRecordSet.getitemSlice s ⟨some 1, none⟩
      = .ok { value_type := s.value_type, elems := s.elems.drop 1 } ∧
    (s.elems.drop 1).length = s.elems.length - 1 := by
  constructor
  · unfold MutableRecordSet.getitemSlice MutableRecordSet.initFrom
    have hslice : pyGetSlice s.elems ⟨some 1, none⟩ = s.elems.drop 1 := by
      simp only [pyGetSlice, sliceBound, List.take_length]
      norm_num
      rw [Nat.min_eq_left hlen, List.drop_one]
    rw [hslice]
    have hres := appendAll_ok s.value_type (s.elems.drop 1) []
      (fun e he => hval e (List.drop_subset 1 s.elems he))
    simpa using hres
  · simp [List.length_drop]

/-- Witness for C4 at a concrete input: a three-element list. -/
theorem c4_slice_read_witness :
    MutableRecordSet.getitemSlice
        { value_type := "Foo",
          elems := [{ ty := "Foo", fields := [("a", 1)] },
                    { ty := "Foo", fields := [("a", 2)] },
                    { ty := "Foo", fields := [("a", 3)] }] } ⟨some 1, none⟩
      = .ok { value_type := "Foo",
              elems := [{ ty := "Foo", fields := [("a", 2)] },
                        { ty := "Foo", fields := [("a", 3)] }] } :=
  (c4_slice_read _ (by decide) (by decide)).1

/-- C5: slice assignment list[:2] = value replaces the first two
elements by exactly the supplied elements (adjusting the length from n
to value.length + (n - min 2 n)); the whole replacement batch is
type-checked before anything is written, and if any replacement element
fails the check the operation raises AssertionError with the list left
exactly as it was. -/
theorem c5_slice_write (s : MutableRecordSet) (value : List RecElem) :
    ((∀ o ∈ value, o.ty = s.value_type) →
      MutableRecordSet.setitemSlice s ⟨none, some 2⟩ value
        = ({ s with elems := value ++ s.elems.drop (min 2 s.elems.length) }, none) ∧
      (value ++ s.elems.drop (min 2 s.elems.length)).length
        = value.length + (s.elems.length - min 2 s.elems.length)) ∧
    ((∃ o ∈ value, o.ty ≠ s.value_type) →
      MutableRecordSet.setitemSlice s ⟨none, some 2⟩ value = (s, some .assertionError)) := by
  constructor
  · intro hall
    constructor
    · unfold MutableRecordSet.setitemSlice
      rw [if_pos hall]
      have hsp : pySetSlice s.elems ⟨none, some 2⟩ value
          = value ++ s.elems.drop (min 2 s.elems.length) := by
        simp only [pySetSlice, sliceBound]
        norm_num
        congr 1
      rw [hsp]
    · simp [List.length_drop]
  · intro hbad
    unfold MutableRecordSet.setitemSlice
    rw [if_neg]
    intro hall
    obtain ⟨o, ho, hne⟩ := hbad
    exact hne (hall o ho)

/-- Witness for C5 at concrete inputs: a three-element list; a
type-correct replacement [x] shrinks the list to [x, e3], and a
replacement containing a wrong-typed element leaves the list untouched
and raises. -/
theorem c5_slice_write_witness :
    (MutableRecordSet.setitemSlice
        { value_type := "Foo",
          elems := [{ ty := "Foo", fields := [("a", 1)] },
                    { ty := "Foo", fields := [("a", 2)] },
                    { ty := "Foo", fields := [("a", 3)] }] } ⟨none, some 2⟩
        [{ ty := "Foo", fields := [("a", 10)] }]
      = ({ value_type := "Foo",
           elems := [{ ty := "Foo", fields := [("a", 10)] },
                     { ty := "Foo", fields := [("a", 3)] }] }, none)) ∧
    (MutableRecordSet.setitemSlice
        { value_type := "Foo",
          elems := [{ ty := "Foo", fields := [("a", 1)] },
                    { ty := "Foo", fields := [("a", 2)] },
                    { ty := "Foo", fields := [("a", 3)] }] } ⟨none, some 2⟩
        [{ ty := "Foo", fields := [("a", 10)] }, { ty := "Bar", fields := [] }]
      = ({ value_type := "Foo",
           elems := [{ ty := "Foo", fields := [("a", 1)] },
                     { ty := "Foo", fields := [("a", 2)] },
                     { ty := "Foo", fields := [("a", 3)] }] }, some .assertionError)) := by
  constructor
  · exact ((c5_slice_write _ _).1 (by decide)).1
  · exact (c5_slice_write _ _).2 ⟨{ ty := "Bar", fields := [] }, by decide, by decide⟩

/-- Extending a record list with a fully type-correct input appends all
its elements in order. -/
theorem extend_ok :
    ∀ (good : List RecElem) (s : MutableRecordSet), (∀ e ∈ good, e.ty = s.value_type) →
      MutableRecordSet.extend s good = ({ s with elems := s.elems ++ good }, none) := by
  intro good
  induction good with
  | nil => intro s hv; simp [MutableRecordSet.extend]
  | cons o rest ih =>
    intro s hv
    have ho : o.ty = s.value_type := hv o (List.mem_cons_self o rest)
    simp only [MutableRecordSet.extend, if_pos ho]
    rw [ih { value_type := s.value_type, elems := s.elems ++ [o] }
      (fun e he => hv e (List.mem_cons_of_mem o he))]
    simp

/-- Extending a record list with an input whose first wrong-typed
element comes after a type-correct prefix appends exactly that prefix —
the elements already consumed are kept, the offending element and the
rest of the stream are never added — and raises AssertionError. -/
theorem extend_fail (bad : RecElem) (rest : List RecElem) :
    ∀ (good : List RecElem) (s : MutableRecordSet),
      (∀ e ∈ good, e.ty = s.value_type) → bad.ty ≠ s.value_type →
      MutableRecordSet.extend s (good ++ bad :: rest)
        = ({ s with elems := s.elems ++ good }, some .assertionError) := by
  intro good
  induction good with
  | nil =>
    intro s hv hbad
    simp only [List.nil_append, MutableRecordSet.extend, if_neg hbad]
    simp
  | cons o tl ih =>
    intro s hv hbad
    have ho : o.ty = s.value_type := hv o (List.mem_cons_self o tl)
    simp only [List.cons_append, MutableRecordSet.extend, if_pos ho, List.append_eq]
    rw [ih { value_type := s.value_type, elems := s.elems ++ [o] }
      (fun e he => hv e (List.mem_cons_of_mem o he)) hbad]
    simp

/-- C6: append and insert type-check the incoming element before any
mutation — a wrong-typed element raises AssertionError with the list
unchanged — and extend consumes its input in one left-to-right pass,
type-checking each element just before appending it: a type-correct
input is appended whole, and an input whose first wrong-typed element
follows a correct prefix keeps exactly the already-consumed prefix,
raising before the offending element or anything after it is added. -/
theorem c6_typecheck_mutators (s : MutableRecordSet) (bad : RecElem) (i : Int)
    (good rest : List RecElem)
    (hbad : bad.ty ≠ s.value_type) (hgood : ∀ e ∈ good, e.ty = s.value_type) :
    MutableRecordSet.append s bad = (s, some .assertionError) ∧
    MutableRecordSet.insert s i bad = (s, some .assertionError) ∧
    MutableRecordSet.extend s good = ({ s with elems := s.elems ++ good }, none) ∧
    MutableRecordSet.extend s (good ++ bad :: rest)
      = ({ s with elems := s.elems ++ good }, some .assertionError) := by
  refine ⟨?_, ?_, extend_ok good s hgood, extend_fail bad rest good s hgood hbad⟩
  · simp [MutableRecordSet.append, if_neg hbad]
  · simp [MutableRecordSet.insert, if_neg hbad]

/-- Witness for C6 at concrete inputs: a one-element "Foo" list, a
"Bar" element rejected by append and insert, and an extend by one good
element followed by the bad one, which keeps the good element only. -/
theorem c6_typecheck_mutators_witness :
    (MutableRecordSet.append { value_type := "Foo", elems := [{ ty := "Foo", fields := [] }] }
        { ty := "Bar", fields := [] }
      = ({ value_type := "Foo", elems := [{ ty := "Foo", fields := [] }] },
          some .assertionError)) ∧
    (MutableRecordSet.insert { value_type := "Foo", elems := [{ ty := "Foo", fields := [] }] }
        0 { ty := "Bar", fields := [] }
      = ({ value_type := "Foo", elems := [{ ty := "Foo", fields := [] }] },
          some .assertionError)) ∧
    (MutableRecordSet.extend { value_type := "Foo", elems := [{ ty := "Foo", fields := [] }] }
        [{ ty := "Foo", fields := [("a", 7)] }]
      = ({ value_type := "Foo",
           elems := [{ ty := "Foo", fields := [] }, { ty := "Foo", fields := [("a", 7)] }] },
          none)) ∧
    (MutableRecordSet.extend { value_type := "Foo", elems := [{ ty := "Foo", fields := [] }] }
        [{ ty := "Foo", fields := [("a", 7)] }, { ty := "Bar", fields := [] }]
      = ({ value_type := "Foo",
           elems := [{ ty := "Foo", fields := [] }, { ty := "Foo", fields := [("a", 7)] }] },
          some .assertionError)) := by
  have hc := c6_typecheck_mutators
    { value_type := "Foo", elems := [{ ty := "Foo", fields := [] }] }
    { ty := "Bar", fields := [] } 0
    [{ ty := "Foo", fields := [("a", 7)] }] [] (by decide) (by decide)
  exact ⟨hc.1, hc.2.1, hc.2.2.1, hc.2.2.2⟩

/-- Setting a key that is present in an attribute map overwrites its
value: lookup after the replacement yields the new value. -/
theorem alookup_map_replace (f : String) (v : Int) :
    ∀ (l : List (String × Int)) (w : Int), alookup f l = some w →
      alookup f (replaceField f v l) = some v := by
  intro l
  induction l with
  | nil => intro w hw; simp [alookup] at hw
  | cons kv rest ih =>
    intro w hw
    obtain ⟨k, x⟩ := kv
    by_cases hk : k = f
    · simp [replaceField, if_pos hk, alookup]
    · simp only [alookup, if_neg hk] at hw
      simp only [replaceField, if_neg hk, alookup, if_neg hk]
      exact ih w hw

/-- Overwriting one field of a record leaves its lookup of the
overwritten field at the new value. -/
theorem getattr_setattr (e : RecElem) (f : String) (v w : Int)
    (hw : e.getattr f = some w) : (RecElem.setattr e f v).getattr f = some v :=
  alookup_map_replace f v e.fields w hw

/-- C7: on a field view over a record list of three elements whose
projected field currently reads w0, w1, w2, the scalar write
view[1] := v mutates the backing container in place — the element at
index 1 of the underlying list now reports v for that field, the other
elements are untouched — and a fresh iteration of the view afterwards
yields exactly [w0, v, w2]: iteration is a pass over the live container
at iteration time, not a snapshot. -/
theorem c7_fieldview_write_iter (vt f : String) (e0 e1 e2 : RecElem) (w0 w1 w2 v : Int)
    (h0 : e0.getattr f = some w0) (h1 : e1.getattr f = some w1)
    (h2 : e2.getattr f = some w2) :
    FieldView.setitemIdx ⟨⟨vt, [e0, e1, e2]⟩, f⟩ 1 v
      = (⟨⟨vt, [e0, RecElem.setattr e1 f v, e2]⟩, f⟩, none) ∧
    (RecElem.setattr e1 f v).getattr f = some v ∧
    FieldView.iter ⟨⟨vt, [e0, RecElem.setattr e1 f v, e2]⟩, f⟩
      = [some w0, some v, some w2] := by
  refine ⟨?_, getattr_setattr e1 f v w1 h1, ?_⟩
  · rfl
  · simp [FieldView.iter, RecElem.getattr] at h0 h2 ⊢
    exact ⟨h0, alookup_map_replace f v e1.fields w1 h1, h2⟩

/-- Witness for C7 at a concrete input: field "x" over three "Foo"
records with values [1, 2, 3]; after view[1] := 100 the underlying
element reports 100 and iteration yields [1, 100, 3]. -/
theorem c7_fieldview_write_iter_witness :
    FieldView.setitemIdx
        ⟨⟨"Foo", [⟨"Foo", [("x", 1)]⟩, ⟨"Foo", [("x", 2)]⟩, ⟨"Foo", [("x", 3)]⟩]⟩, "x"⟩ 1 100
      = (⟨⟨"Foo", [⟨"Foo", [("x", 1)]⟩, ⟨"Foo", [("x", 100)]⟩, ⟨"Foo", [("x", 3)]⟩]⟩, "x"⟩,
          none) ∧
    FieldView.iter
        ⟨⟨"Foo", [⟨"Foo", [("x", 1)]⟩, ⟨"Foo", [("x", 100)]⟩, ⟨"Foo", [("x", 3)]⟩]⟩, "x"⟩
      = [some 1, some 100, some 3] := by
  have hc := c7_fieldview_write_iter "Foo" "x"
    ⟨"Foo", [("x", 1)]⟩ ⟨"Foo", [("x", 2)]⟩ ⟨"Foo", [("x", 3)]⟩
    1 2 3 100 (by decide) (by decide) (by decide)
  exact ⟨hc.1, hc.2.2⟩

/-- C9 counterexample: declaring a record type with a data-carrying
base ("Animal") does make the builder fail, but the exception the
program raises is a NameError (the message formatting at record.py
line 303 references the generator-scoped name `base`, which is unbound
there, before any TypeError is constructed), and a NameError does not
belong to the DataError family — contradicting the claim that the
failure is a DataError of the StructuralDefinitionError kind. -/
theorem c9_base_error_not_dataerror_counterexample :
    MutableRecordType.new "Foo" [.objectBase, .otherBase "Animal"] []
      = .error PyError.nameError ∧
    PyError.nameError.isDataErr = false := by
  exact ⟨rfl, rfl⟩

/-- C9 amended: for every attempt to build a record type declaring a
base other than `object`, the builder fails — but with a NameError:
the raise statement at record.py line 303 names TypeError, yet its
message formatting evaluates the out-of-scope generator variable
`base` first, so the exception actually raised is a NameError, and in
no case a member of the DataError family. -/
theorem c9_disallowed_base_fails (name : String) (bases : List BaseRef)
    (clsdict : List (String × ClsVal))
    (hbad : bases.any (fun b => b != BaseRef.objectBase) = true) :
    MutableRecordType.new name bases clsdict = .error PyError.nameError ∧
    PyError.nameError.isDataErr = false := by
  unfold MutableRecordType.new
  rw [if_pos hbad]
  exact ⟨rfl, rfl⟩

/-- Witness for the amended C9 at a concrete input. -/
theorem c9_disallowed_base_fails_witness :
    MutableRecordType.new "Dog" [.otherBase "Animal"] [("name", .dataVal (.plain .required))]
      = .error PyError.nameError ∧
    PyError.nameError.isDataErr = false :=
  c9_disallowed_base_fails "Dog" [.otherBase "Animal"]
    [("name", .dataVal (.plain .required))] (by decide)

/-- C10: for every record type the builder accepts, every declared data
member — whatever its field specification, a validator, a plain default
or the bare Required sentinel — contributes a pluralized accessor
(field name + "s") to the namespace of the companion list type, and
resolving such a descriptor on a record list yields the FieldView of
that list for that field. -/
theorem c10_pluralized_accessors (name : String) (bases : List BaseRef)
    (clsdict : List (String × ClsVal)) (key : String) (spec : FieldSpec)
    (rt : RecordTypeDescr) (c : MutableRecordSet)
    (hok : MutableRecordType.new name bases clsdict = .ok rt)
    (hmem : (key, ClsVal.dataVal spec) ∈ clsdict) (hkey : ¬ key.startsWith "__") :
    (key ++ "s", ListNsEntry.fieldViewDescriptor key) ∈ rt.listType.namespaceEntries ∧
    FieldViewDescriptor.get key c = { container := c, field := key } := by
  refine ⟨?_, rfl⟩
  unfold MutableRecordType.new at hok
  split at hok
  · simp at hok
  · injection hok with hrt
    subst hrt
    simp only [make_mutable_list_type]
    have hfield : (key, spec) ∈ recordFields clsdict := by
      unfold recordFields
      apply List.mem_filterMap.mpr
      exact ⟨(key, ClsVal.dataVal spec), hmem, by simp [if_neg hkey]⟩
    exact List.mem_map.mpr ⟨(key, spec), hfield, rfl⟩

/-- Witness for C10 at a concrete input: a record type with a
Required-sentinel field "x" (no validator); its list type's namespace
holds the accessor "xs", and resolving it on an empty list yields the
corresponding FieldView. -/
theorem c10_pluralized_accessors_witness :
    ("xs", ListNsEntry.fieldViewDescriptor "x")
      ∈ (RecordTypeDescr.mk "Foo" [("x", FieldSpec.plain PyVal.required)]
          (make_mutable_list_type "FooList" "Foo"
            [("x", FieldSpec.plain PyVal.required)])).listType.namespaceEntries ∧
    FieldViewDescriptor.get "x" ⟨"Foo", []⟩
      = { container := ⟨"Foo", []⟩, field := "x" } :=
  c10_pluralized_accessors "Foo" [.objectBase]
    [("x", ClsVal.dataVal (FieldSpec.plain PyVal.required))] "x"
    (FieldSpec.plain PyVal.required) _ ⟨"Foo", []⟩ rfl (List.mem_cons_self _ _)
    (by decide)
